import Mathlib

/-!
Shallow embedding of `src/lib/src/filter/tagged.rs` (the tagged filterer of
watchexec): the `Matcher`, `Op`, `Pattern`, `Filter` data model, the
`Filter::matches` predicate, `TaggedFilterer::match_tag` and
`TaggedFilterer::check_event`, together with theorems about them.

Rust `Result<T, RuntimeError>` is embedded as `RResult`, which also records
divergence by panic (the source uses `todo!(..)` in three arms of
`match_tag`) as an explicit `panicked` constructor, so that "returns an
error" and "panics" are distinguishable outcomes of the embedded functions.

Compiled `regex::Regex` and `globset::GlobMatcher` values come from external
crates; they are embedded abstractly as a source text together with an
arbitrary match function, since the filterer only calls their `is_match`
and compares their source texts.
-/

namespace Tagged

/-- `RuntimeError` lives in `crate::error`, outside the given source; no
variant of it is ever constructed in `tagged.rs`, so it is embedded as an
abstract wrapper. -/
inductive RuntimeError where
  | external : String → RuntimeError
deriving DecidableEq

/-- Outcome of an embedded Rust computation: `ok`/`err` mirror
`Result::Ok`/`Result::Err`, and `panicked` records divergence by panic
(`todo!`) with the panic message. -/
inductive RResult (α : Type) where
  | ok : α → RResult α
  | err : RuntimeError → RResult α
  | panicked : String → RResult α
deriving DecidableEq

/-- `Result::map`, extended to the panic outcome (a panic propagates). -/
def RResult.mapVal {α β : Type} (f : α → β) : RResult α → RResult β
  | .ok a => .ok (f a)
  | .err e => .err e
  | .panicked m => .panicked m

/-- A compiled `regex::Regex`: its source text (`Regex::as_str`) and an
abstract match function (`Regex::is_match`). -/
structure CompiledRegex where
  source : String
  isMatch : String → Bool

/-- A compiled `globset::GlobMatcher`: its glob syntax text
(`GlobMatcher::glob`) and an abstract match function (`is_match`). -/
structure CompiledGlob where
  glob : String
  isMatch : String → Bool

/-- `enum Pattern` from tagged.rs. `Set(HashSet<String>)` is embedded as a
list of strings with membership up to string equality. -/
inductive Pattern where
  | Exact : String → Pattern
  | Regex : CompiledRegex → Pattern
  | Glob : CompiledGlob → Pattern
  | Set : List String → Pattern

/-- `enum Op` from tagged.rs. -/
inductive Op where
  | Auto
  | Equal
  | NotEqual
  | Regex
  | NotRegex
  | Glob
  | NotGlob
  | InSet
  | NotInSet
deriving DecidableEq

/-- `enum Matcher` from tagged.rs. -/
inductive Matcher where
  | Tag
  | Path
  | FileEventKind
  | Source
  | Process
  | Signal
  | ProcessCompletion
deriving DecidableEq

/-- `Tag` lives in `crate::event`, outside the given source. Payloads of
variants are embedded by their textual rendering as used in `match_tag`
(`format!("\x7b:?\x7d", kind)` for file event kinds, `to_string` for
sources; process ids as naturals rendered by `toString`); the payloads of
`Path`, `Signal` and `ProcessCompletion` are never projected by the given
source, so plain carrier types stand in for them. -/
inductive Tag where
  | Path : String → Tag
  | FileEventKind : String → Tag
  | Source : String → Tag
  | Process : Nat → Tag
  | Signal : String → Tag
  | ProcessCompletion : Option Nat → Tag

/-- Modelled from the spec: `Tag::discriminant_name` is defined in the
event module, outside the given source; per the spec it projects "the
tag's own discriminant name". -/
def Tag.discriminant_name : Tag → String
  | .Path _ => "Path"
  | .FileEventKind _ => "FileEventKind"
  | .Source _ => "Source"
  | .Process _ => "Process"
  | .Signal _ => "Signal"
  | .ProcessCompletion _ => "ProcessCompletion"

/-- `impl From<&Tag> for Matcher` from tagged.rs. -/
def matcherOfTag : Tag → Matcher
  | .Path _ => .Path
  | .FileEventKind _ => .FileEventKind
  | .Source _ => .Source
  | .Process _ => .Process
  | .Signal _ => .Signal
  | .ProcessCompletion _ => .ProcessCompletion

/-- `struct Filter` from tagged.rs (`in_path: Option<PathBuf>` embedded as
an optional string). -/
structure Filter where
  in_path : Option String
  «on» : Matcher
  op : Op
  pat : Pattern
  negate : Bool

/-- `HashSet::contains` on the list embedding of a string set. -/
def setContains (set : List String) (s : String) : Bool :=
  set.contains s

/-- `HashSet` equality on the list embedding: equality as sets (mutual
containment). -/
def setEqv (l r : List String) : Bool :=
  l.all (fun x => r.contains x) && r.all (fun x => l.contains x)

/-- `impl PartialEq for Pattern` from tagged.rs: source-text equality for
`Regex` and `Glob`, text equality for `Exact`, set equality for `Set`,
`false` across kinds. -/
def patternEq : Pattern → Pattern → Bool
  | .Exact l, .Exact r => l == r
  | .Regex l, .Regex r => l.source == r.source
  | .Glob l, .Glob r => l.glob == r.glob
  | .Set l, .Set r => setEqv l r
  | _, _ => false

/-- Discriminant of a `Pattern`, used to state that patterns of different
kinds are never equal. -/
def patternKind : Pattern → Nat
  | .Exact _ => 0
  | .Regex _ => 1
  | .Glob _ => 2
  | .Set _ => 3

/-- `Filter::matches` from tagged.rs: the `match (self.op, &self.pat)`
table; every arm returns `Ok`, and the fallthrough arm logs a warning and
returns `Ok(false)`. -/
def Filter.matches (f : Filter) (subject : String) : RResult Bool :=
  match f.op, f.pat with
  | .Equal, .Exact pat => .ok (subject == pat)
  | .NotEqual, .Exact pat => .ok (!(subject == pat))
  | .Regex, .Regex pat => .ok (pat.isMatch subject)
  | .NotRegex, .Regex pat => .ok (!(pat.isMatch subject))
  | .Glob, .Glob pat => .ok (pat.isMatch subject)
  | .NotGlob, .Glob pat => .ok (!(pat.isMatch subject))
  | .InSet, .Set set => .ok (setContains set subject)
  | .InSet, .Exact pat => .ok (subject == pat)
  | .NotInSet, .Set set => .ok (!(setContains set subject))
  | .NotInSet, .Exact pat => .ok (!(subject == pat))
  | _, _ => .ok false

/-- The ten `(op, pat)` arms listed in `Filter::matches` before the
fallthrough arm. -/
def validPairing : Op → Pattern → Bool
  | .Equal, .Exact _ => true
  | .NotEqual, .Exact _ => true
  | .Regex, .Regex _ => true
  | .NotRegex, .Regex _ => true
  | .Glob, .Glob _ => true
  | .NotGlob, .Glob _ => true
  | .InSet, .Set _ => true
  | .InSet, .Exact _ => true
  | .NotInSet, .Set _ => true
  | .NotInSet, .Exact _ => true
  | _, _ => false

/-- `TaggedFilterer::match_tag` from tagged.rs: dispatch on
`(tag, filter.«on»)`; the three `todo!` arms are embedded as panics with the
source's messages; the final arm yields `Ok(None)` (filter inapplicable). -/
def matchTag (filter : Filter) (tag : Tag) : RResult (Option Bool) :=
  match tag, filter.«on» with
  | tag, .Tag => (filter.matches tag.discriminant_name).mapVal some
  | .Path _, .Path => .panicked "tagged filterer: path matcher"
  | .FileEventKind kind, .FileEventKind => (filter.matches kind).mapVal some
  | .Source src, .Source => (filter.matches src).mapVal some
  | .Process pid, .Process => (filter.matches (toString pid)).mapVal some
  | .Signal _, .Signal => .panicked "tagged filterer: signal matcher"
  | .ProcessCompletion _, .ProcessCompletion =>
      .panicked "tagged filterer: completion matcher"
  | _, _ => .ok none

/-- The filter registry `HashMap<Matcher, Vec<Filter>>`, embedded as an
association list with unique keys looked up by first match. -/
abbrev Registry := List (Matcher × List Filter)

/-- `HashMap::get` on the association-list embedding. -/
def registryGet : Registry → Matcher → Option (List Filter)
  | [], _ => none
  | (k, fs) :: rest, m => if k = m then some fs else registryGet rest m

/-- `struct TaggedFilterer` from tagged.rs (`_root` and `_workdir` are
never read by the given source). -/
structure TaggedFilterer where
  root : String
  workdir : String
  filters : Registry

/-- `Event` lives in `crate::event`, outside the given source;
`check_event` only reads its `tags` field. -/
structure Event where
  tags : List Tag

/-- The inner filter loop of `check_event`: fold the bucket's filters over
the accumulator `tag_match`, starting from the given value; an `Err` or a
panic from `match_tag` propagates immediately. -/
def runBucket : List Filter → Tag → Bool → RResult Bool
  | [], _, tag_match => .ok tag_match
  | filter :: rest, tag, tag_match =>
    match matchTag filter tag with
    | .err e => .err e
    | .panicked m => .panicked m
    | .ok none => runBucket rest tag tag_match
    | .ok (some app) =>
        runBucket rest tag
          (if filter.negate then (if app then true else tag_match)
           else (tag_match && app))

/-- The tag loop of `check_event`: for each tag, look up its bucket; a
missing or empty bucket is skipped; otherwise run the bucket from
`tag_match = true` and return `Ok(false)` as soon as a bucket ends false. -/
def checkTags (self : TaggedFilterer) : List Tag → RResult Bool
  | [] => .ok true
  | tag :: rest =>
    match registryGet self.filters (matcherOfTag tag) with
    | none => checkTags self rest
    | some tag_filters =>
      if tag_filters.isEmpty then checkTags self rest
      else
        match runBucket tag_filters tag true with
        | .err e => .err e
        | .panicked m => .panicked m
        | .ok tag_match => if tag_match then checkTags self rest else .ok false

/-- `TaggedFilterer::check_event` from tagged.rs. -/
def checkEvent (self : TaggedFilterer) (event : Event) : RResult Bool :=
  if self.filters.isEmpty then .ok true
  else checkTags self event.tags

/-- The result of one tag's bucket: `Ok(true)` for a missing or empty
bucket, the bucket fold from `true` otherwise. `check_event` composes
these by AND with short-circuit (proved below). -/
def evalTag (self : TaggedFilterer) (tag : Tag) : RResult Bool :=
  match registryGet self.filters (matcherOfTag tag) with
  | none => .ok true
  | some tag_filters =>
    if tag_filters.isEmpty then .ok true
    else runBucket tag_filters tag true

/-- The registry with the `Matcher::Tag` bucket removed. -/
def removeTagBucket : Registry → Registry
  | [] => []
  | (k, fs) :: rest =>
    if k = Matcher.Tag then removeTagBucket rest
    else (k, fs) :: removeTagBucket rest

/-- Replace each filter's `in_path` by an arbitrary choice, leaving every
other field unchanged. -/
def setInPath (np : Filter → Option String) (f : Filter) : Filter :=
  { f with in_path := np f }

/-- Apply `setInPath` to every filter of every bucket. -/
def mapInPath (np : Filter → Option String) (reg : Registry) : Registry :=
  reg.map (fun e => (e.1, e.2.map (setInPath np)))

/-- The literal override scenario of the spec: a `Source` filter
`Equal "a"`, not negated. -/
def filt1 : Filter := ⟨none, .Source, .Equal, .Exact "a", false⟩

/-- The literal override scenario of the spec: a `Source` filter
`Equal "b"`, negated. -/
def filt2 : Filter := ⟨none, .Source, .Equal, .Exact "b", true⟩

/-- Filterer holding the scenario bucket `[filt1, filt2]` under
`Matcher::Source`. -/
def demoFilterer : TaggedFilterer := ⟨"", "", [(.Source, [filt1, filt2])]⟩

/-- The same bucket with the two filters swapped. -/
def demoSwapped : TaggedFilterer := ⟨"", "", [(.Source, [filt2, filt1])]⟩

/-- A filterer with a rejecting `Source` bucket followed by a `Signal`
bucket whose evaluation would panic if reached. -/
def shortCircuitFilterer : TaggedFilterer :=
  ⟨"", "", [(.Source, [filt1, filt2]),
            (.Signal, [⟨none, .Signal, .Equal, .Exact "x", false⟩])]⟩

/-- A filterer with one filter registered under `Matcher::Signal`. -/
def signalFilterer : TaggedFilterer :=
  ⟨"", "", [(.Signal, [⟨none, .Signal, .Equal, .Exact "SIGINT", false⟩])]⟩

/-- A filterer with an empty `Path` bucket and a non-empty `Source`
bucket. -/
def emptyBucketFilterer : TaggedFilterer :=
  ⟨"", "", [(.Path, []), (.Source, [filt1])]⟩

end Tagged

namespace Tagged

/-- Every arm of `Filter::matches` returns `Ok`: the function is total and
infallible. -/
theorem matches_ok (f : Filter) (s : String) : ∃ b : Bool, f.matches s = .ok b := by
  obtain ⟨ip, m, op, pat, neg⟩ := f
  cases op <;> cases pat <;> exact ⟨_, rfl⟩

/-- Mapping `some` over an infallible `matches` result never yields `err`. -/
theorem matches_mapVal_ne_err (f : Filter) (s : String) (e : RuntimeError) :
    (f.matches s).mapVal some ≠ .err e := by
  obtain ⟨b, hb⟩ := matches_ok f s
  rw [hb]
  simp [RResult.mapVal]

/-- `match_tag` never returns `Err`: each arm either panics, returns
`Ok(None)`, or maps an infallible `matches` result. -/
theorem matchTag_ne_err (f : Filter) (t : Tag) (e : RuntimeError) :
    matchTag f t ≠ .err e := by
  obtain ⟨ip, m, op, pat, neg⟩ := f
  cases t <;> cases m <;>
    first
      | exact matches_mapVal_ne_err _ _ _
      | (intro h; exact RResult.noConfusion h)

/-- The bucket fold never returns `Err`. -/
theorem runBucket_ne_err (fs : List Filter) (t : Tag) (acc : Bool) (e : RuntimeError) :
    runBucket fs t acc ≠ .err e := by
  induction fs generalizing acc with
  | nil => intro h; exact RResult.noConfusion h
  | cons f fs ih =>
    rw [runBucket]
    cases hm : matchTag f t with
    | ok o =>
      cases o with
      | none => exact ih acc
      | some app => exact ih _
    | err e' => exact absurd hm (matchTag_ne_err f t e')
    | panicked m => intro h; exact RResult.noConfusion h

/-- Unfolding one step of the tag loop through `evalTag`. -/
theorem checkTags_cons (self : TaggedFilterer) (t : Tag) (ts : List Tag) :
    checkTags self (t :: ts) =
      match evalTag self t with
      | .ok true => checkTags self ts
      | .ok false => .ok false
      | .err e => .err e
      | .panicked m => .panicked m := by
  rw [checkTags, evalTag]
  cases registryGet self.filters (matcherOfTag t) with
  | none => rfl
  | some fs =>
    by_cases hfs : fs.isEmpty = true
    · simp [hfs]
    · simp only [hfs, if_false, Bool.false_eq_true]
      cases runBucket fs t true with
      | ok b => cases b <;> rfl
      | err e => rfl
      | panicked m => rfl

/-- A tag whose bucket result is not an `Ok(false)` rejection, an error or
a panic contributes nothing: the loop proceeds. -/
theorem checkTags_all_ok (self : TaggedFilterer) (ts : List Tag)
    (h : ∀ t ∈ ts, evalTag self t = .ok true) : checkTags self ts = .ok true := by
  induction ts with
  | nil => rfl
  | cons t ts ih =>
    rw [checkTags_cons, h t (by simp)]
    exact ih (fun t' ht' => h t' (by simp [ht']))

/-- `evalTag` never returns `Err`. -/
theorem evalTag_ne_err (self : TaggedFilterer) (t : Tag) (e : RuntimeError) :
    evalTag self t ≠ .err e := by
  rw [evalTag]
  cases registryGet self.filters (matcherOfTag t) with
  | none => intro h; exact RResult.noConfusion h
  | some fs =>
    by_cases hfs : fs.isEmpty = true
    · simp [hfs]
    · simp only [hfs, if_false, Bool.false_eq_true]
      exact runBucket_ne_err fs t true e

/-- The tag loop never returns `Err`. -/
theorem checkTags_ne_err (self : TaggedFilterer) (ts : List Tag) (e : RuntimeError) :
    checkTags self ts ≠ .err e := by
  induction ts with
  | nil => intro h; exact RResult.noConfusion h
  | cons t ts ih =>
    rw [checkTags_cons]
    cases hv : evalTag self t with
    | ok b => cases b <;> simp [ih]
    | err e' => exact absurd hv (evalTag_ne_err self t e')
    | panicked m => intro h; exact RResult.noConfusion h

/-- A successful `registryGet` exhibits a member of the registry. -/
theorem registryGet_mem (reg : Registry) (m : Matcher) (fs : List Filter)
    (h : registryGet reg m = some fs) : (m, fs) ∈ reg := by
  induction reg with
  | nil => exact absurd h (by simp [registryGet])
  | cons e rest ih =>
    obtain ⟨k, fs'⟩ := e
    rw [registryGet] at h
    by_cases hk : k = m
    · subst hk
      simp only [if_pos rfl] at h
      cases h
      exact List.mem_cons_self _ _
    · rw [if_neg hk] at h
      exact List.mem_cons_of_mem _ (ih h)

end Tagged

namespace Tagged

/-- C5: for every subject, `Filter::matches` with a valid (operator,
pattern) pairing follows the table exactly: `Equal`/`Exact` holds iff the
subject equals the pattern text and `NotEqual` is its exact complement;
`Regex`/`Regex` returns the compiled regex's match on the subject and
`NotRegex` its boolean complement; `Glob`/`Glob` likewise with the glob;
`InSet`/`Set` holds iff the subject is a member of the set and `NotInSet`
is its exact complement. -/
theorem c5_matches_table (ip : Option String) (m : Matcher) (neg : Bool)
    (pat : String) (s : String) :
    (Filter.matches ⟨ip, m, .Equal, .Exact pat, neg⟩ s = .ok true ↔ s = pat) ∧
    (Filter.matches ⟨ip, m, .NotEqual, .Exact pat, neg⟩ s = .ok true ↔ ¬ s = pat) ∧
    (∀ r : CompiledRegex,
      Filter.matches ⟨ip, m, .Regex, .Regex r, neg⟩ s = .ok (r.isMatch s) ∧
      Filter.matches ⟨ip, m, .NotRegex, .Regex r, neg⟩ s = .ok (!(r.isMatch s))) ∧
    (∀ g : CompiledGlob,
      Filter.matches ⟨ip, m, .Glob, .Glob g, neg⟩ s = .ok (g.isMatch s) ∧
      Filter.matches ⟨ip, m, .NotGlob, .Glob g, neg⟩ s = .ok (!(g.isMatch s))) ∧
    (∀ set : List String,
      (Filter.matches ⟨ip, m, .InSet, .Set set, neg⟩ s = .ok true ↔ s ∈ set) ∧
      (Filter.matches ⟨ip, m, .NotInSet, .Set set, neg⟩ s = .ok true ↔ ¬ s ∈ set)) := by
  refine ⟨?_, ?_, fun r => ⟨rfl, rfl⟩, fun g => ⟨rfl, rfl⟩, fun set => ⟨?_, ?_⟩⟩
  · simp [Filter.matches]
  · simp [Filter.matches]
  · simp [Filter.matches, setContains, List.elem_iff]
  · simp [Filter.matches, setContains, List.elem_iff]

/-- C6: every (operator, pattern) combination outside the ten listed arms
(`Op::Auto` with anything included) evaluates to `Ok(false)`, and
`Filter::matches` is total, always returning `Ok` for every operator,
pattern and subject — never `Err`. -/
theorem c6_invalid_pairings_false_total :
    (∀ (f : Filter) (s : String),
      validPairing f.op f.pat = false → f.matches s = .ok false) ∧
    (∀ (f : Filter) (s : String), ∃ b : Bool, f.matches s = .ok b) ∧
    (∀ (ip : Option String) (m : Matcher) (p : Pattern) (neg : Bool) (s : String),
      Filter.matches ⟨ip, m, .Auto, p, neg⟩ s = .ok false) := by
  refine ⟨?_, matches_ok, ?_⟩
  · rintro ⟨ip, m, op, pat, neg⟩ s h
    cases op <;> cases pat <;> simp_all [validPairing, Filter.matches]
  · intro ip m p neg s
    cases p <;> rfl

/-- C6 witness: `Op::Auto` with an `Exact` pattern is not a listed pairing
and evaluates to `Ok(false)`. -/
theorem c6_invalid_pairings_false_total_witness :
    Filter.matches ⟨none, .Source, .Auto, .Exact "a", false⟩ "a" = .ok false :=
  c6_invalid_pairings_false_total.1 ⟨none, .Source, .Auto, .Exact "a", false⟩ "a"
    (by decide)

/-- C7: `InSet` with an `Exact` pattern behaves exactly like `Equal` with
that pattern, and `NotInSet` with an `Exact` pattern exactly like
`NotEqual`: the single-element shorthand is equivalent. -/
theorem c7_inset_exact_shorthand (ip : Option String) (m : Matcher) (neg : Bool)
    (pat : String) (s : String) :
    Filter.matches ⟨ip, m, .InSet, .Exact pat, neg⟩ s
        = Filter.matches ⟨ip, m, .Equal, .Exact pat, neg⟩ s ∧
    Filter.matches ⟨ip, m, .NotInSet, .Exact pat, neg⟩ s
        = Filter.matches ⟨ip, m, .NotEqual, .Exact pat, neg⟩ s :=
  ⟨rfl, rfl⟩

/-- C8: `Pattern` equality is source-representation equality: `Exact`
patterns compare by text, `Regex` patterns by regex source text, `Glob`
patterns by glob syntax text (both regardless of the compiled match
functions), `Set` patterns as sets, and patterns of different kinds are
never equal. -/
theorem c8_pattern_eq_source :
    (∀ l r : String, patternEq (.Exact l) (.Exact r) = true ↔ l = r) ∧
    (∀ l r : CompiledRegex,
      patternEq (.Regex l) (.Regex r) = true ↔ l.source = r.source) ∧
    (∀ l r : CompiledGlob,
      patternEq (.Glob l) (.Glob r) = true ↔ l.glob = r.glob) ∧
    (∀ l r : List String,
      patternEq (.Set l) (.Set r) = true ↔ (∀ x : String, x ∈ l ↔ x ∈ r)) ∧
    (∀ p q : Pattern, patternKind p ≠ patternKind q → patternEq p q = false) := by
  refine ⟨?_, ?_, ?_, ?_, ?_⟩
  · intro l r; simp [patternEq]
  · intro l r; simp [patternEq]
  · intro l r; simp [patternEq]
  · intro l r
    simp only [patternEq, setEqv, Bool.and_eq_true, List.all_eq_true, List.elem_iff]
    constructor
    · rintro ⟨h1, h2⟩ x
      exact ⟨fun hx => by simpa using h1 x hx, fun hx => by simpa using h2 x hx⟩
    · intro h
      exact ⟨fun x hx => by simpa using (h x).mp hx,
             fun x hx => by simpa using (h x).mpr hx⟩
  · intro p q h
    cases p <;> cases q <;> simp_all [patternKind, patternEq]

/-- C8 witness: patterns of different kinds (an `Exact` and a `Set`) are
not equal. -/
theorem c8_pattern_eq_source_witness :
    patternEq (.Exact "a") (.Set []) = false :=
  c8_pattern_eq_source.2.2.2.2 (.Exact "a") (.Set []) (by decide)

end Tagged

namespace Tagged

/-- C2: within a non-empty bucket, filters are folded in registry order
from `tag_match = true`: a non-negated applicable filter ANDs its match
into the accumulator, a negated filter whose match is true forces the
accumulator to `true`, and a negated filter whose match is false leaves it
unchanged. On the literal scenario of two `Source` filters
`[Equal "a" plain, Equal "b" negated]`, subject "c" is rejected, subject
"b" is accepted, and swapping the two filters changes the outcome for
subject "b". -/
theorem c2_bucket_order_semantics :
    (∀ (f : Filter) (fs : List Filter) (t : Tag) (acc app : Bool),
      matchTag f t = .ok (some app) →
        (f.negate = false →
          runBucket (f :: fs) t acc = runBucket fs t (acc && app)) ∧
        (f.negate = true → app = true →
          runBucket (f :: fs) t acc = runBucket fs t true) ∧
        (f.negate = true → app = false →
          runBucket (f :: fs) t acc = runBucket fs t acc)) ∧
    checkEvent demoFilterer ⟨[Tag.Source "c"]⟩ = .ok false ∧
    checkEvent demoFilterer ⟨[Tag.Source "b"]⟩ = .ok true ∧
    (∃ s : String,
      checkEvent demoFilterer ⟨[Tag.Source s]⟩
        ≠ checkEvent demoSwapped ⟨[Tag.Source s]⟩) := by
  refine ⟨?_, by decide, by decide, ⟨"b", by decide⟩⟩
  intro f fs t acc app h
  refine ⟨fun h1 => ?_, fun h1 h2 => ?_, fun h1 h2 => ?_⟩
  · simp [runBucket, h, h1]
  · simp [runBucket, h, h1, h2]
  · simp [runBucket, h, h1, h2]

/-- C2 witness: the negated filter `filt2` applied to subject "b" forces
the accumulator from `false` to `true`. -/
theorem c2_bucket_order_semantics_witness :
    runBucket [filt2] (Tag.Source "b") false
      = runBucket ([] : List Filter) (Tag.Source "b") true :=
  (c2_bucket_order_semantics.1 filt2 [] (Tag.Source "b") false true
    (by decide)).2.1 rfl rfl

/-- C3: `check_event` composes tags by AND with short-circuit: if every
tag's bucket evaluates to `Ok(true)` the event passes, and as soon as one
tag's bucket evaluates to `Ok(false)` the event is rejected with
`Ok(false)`, whatever tags follow. -/
theorem c3_and_short_circuit :
    (∀ (self : TaggedFilterer) (ev : Event),
      (∀ t ∈ ev.tags, evalTag self t = .ok true) →
      checkEvent self ev = .ok true) ∧
    (∀ (self : TaggedFilterer) (t : Tag) (ts₁ ts₂ : List Tag),
      self.filters.isEmpty = false →
      (∀ t' ∈ ts₁, evalTag self t' = .ok true) →
      evalTag self t = .ok false →
      checkEvent self ⟨ts₁ ++ t :: ts₂⟩ = .ok false) := by
  constructor
  · intro self ev h
    rw [checkEvent]
    by_cases he : self.filters.isEmpty = true
    · simp [he]
    · simp only [he, Bool.false_eq_true, if_false]
      exact checkTags_all_ok self ev.tags h
  · intro self t ts₁ ts₂ hne h1 ht
    rw [checkEvent]
    simp only [hne, Bool.false_eq_true, if_false]
    induction ts₁ with
    | nil =>
      rw [List.nil_append, checkTags_cons, ht]
    | cons t' rest ih =>
      rw [List.cons_append, checkTags_cons, h1 t' (by simp)]
      exact ih (fun x hx => h1 x (by simp [hx]))

/-- C3 witness: an event whose first tag's bucket rejects is rejected
immediately, before a later tag whose bucket would panic is reached. -/
theorem c3_and_short_circuit_witness :
    checkEvent shortCircuitFilterer ⟨[Tag.Source "c", Tag.Signal "s"]⟩ = .ok false :=
  c3_and_short_circuit.2 shortCircuitFilterer (Tag.Source "c") [] [Tag.Signal "s"]
    (by decide) (by simp) (by decide)

/-- Skipping a tag whose bucket is absent or empty does not change the tag
loop's result, wherever the tag sits in the list. -/
theorem checkTags_skip (self : TaggedFilterer) (t : Tag)
    (h : registryGet self.filters (matcherOfTag t) = none ∨
         registryGet self.filters (matcherOfTag t) = some [])
    (ts₁ ts₂ : List Tag) :
    checkTags self (ts₁ ++ t :: ts₂) = checkTags self (ts₁ ++ ts₂) := by
  induction ts₁ with
  | nil =>
    rw [List.nil_append, List.nil_append, checkTags_cons, evalTag]
    rcases h with h | h <;> simp [h]
  | cons t' rest ih =>
    rw [List.cons_append, List.cons_append, checkTags_cons, checkTags_cons]
    cases evalTag self t' with
    | ok b => cases b <;> simp [ih]
    | err e => rfl
    | panicked m => rfl

/-- C4: a registry in which no matcher has any filters accepts every
event with `Ok(true)`, and a tag whose bucket is absent from the registry
or present but empty contributes no constraint: deleting it from the
event leaves `check_event`'s result unchanged. -/
theorem c4_vacuous_pass :
    (∀ (self : TaggedFilterer) (ev : Event),
      (∀ e ∈ self.filters, e.2.isEmpty = true) →
      checkEvent self ev = .ok true) ∧
    (∀ (self : TaggedFilterer) (t : Tag) (ts₁ ts₂ : List Tag),
      (registryGet self.filters (matcherOfTag t) = none ∨
       registryGet self.filters (matcherOfTag t) = some []) →
      checkEvent self ⟨ts₁ ++ t :: ts₂⟩ = checkEvent self ⟨ts₁ ++ ts₂⟩) := by
  constructor
  · intro self ev h
    rw [checkEvent]
    by_cases he : self.filters.isEmpty = true
    · simp [he]
    · simp only [he, Bool.false_eq_true, if_false]
      refine checkTags_all_ok self ev.tags (fun t ht => ?_)
      rw [evalTag]
      cases hg : registryGet self.filters (matcherOfTag t) with
      | none => rfl
      | some fs =>
        have := h (matcherOfTag t, fs) (registryGet_mem _ _ _ hg)
        simp_all
  · intro self t ts₁ ts₂ h
    rw [checkEvent, checkEvent]
    by_cases he : self.filters.isEmpty = true
    · simp [he]
    · simp only [he, Bool.false_eq_true, if_false]
      exact checkTags_skip self t h ts₁ ts₂

/-- C4 witness: an event with a tag mapping to the empty `Path` bucket is
treated exactly as the event without that tag. -/
theorem c4_vacuous_pass_witness :
    checkEvent emptyBucketFilterer ⟨[Tag.Path "p", Tag.Source "a"]⟩
      = checkEvent emptyBucketFilterer ⟨[Tag.Source "a"]⟩ :=
  c4_vacuous_pass.2 emptyBucketFilterer (Tag.Path "p") [] [Tag.Source "a"]
    (Or.inr rfl)

end Tagged

namespace Tagged

/-- The bucket-lookup key derived from a tag is never `Matcher::Tag`. -/
theorem matcherOfTag_ne_tag (t : Tag) : matcherOfTag t ≠ Matcher.Tag := by
  cases t <;> simp [matcherOfTag]

/-- Removing the `Matcher::Tag` bucket does not change lookups at any
other key. -/
theorem registryGet_removeTagBucket (reg : Registry) (m : Matcher)
    (h : m ≠ Matcher.Tag) :
    registryGet (removeTagBucket reg) m = registryGet reg m := by
  induction reg with
  | nil => rfl
  | cons e rest ih =>
    obtain ⟨k, fs⟩ := e
    rw [removeTagBucket]
    by_cases hk : k = Matcher.Tag
    · subst hk
      rw [if_pos rfl, ih, registryGet, if_neg (fun hh => h hh.symm)]
    · rw [if_neg hk, registryGet, registryGet]
      by_cases hkm : k = m
      · rw [if_pos hkm, if_pos hkm]
      · rw [if_neg hkm, if_neg hkm, ih]

/-- Two filterers whose registries agree on every key a tag can produce
run the tag loop identically. -/
theorem checkTags_ext (self self' : TaggedFilterer)
    (h : ∀ t : Tag, registryGet self'.filters (matcherOfTag t)
          = registryGet self.filters (matcherOfTag t)) :
    ∀ ts : List Tag, checkTags self' ts = checkTags self ts := by
  intro ts
  induction ts with
  | nil => rfl
  | cons t ts ih =>
    have hev : evalTag self' t = evalTag self t := by
      rw [evalTag, evalTag, h t]
    rw [checkTags_cons, checkTags_cons, hev]
    cases evalTag self t with
    | ok b => cases b <;> simp [ih]
    | err e => rfl
    | panicked m => rfl

/-- C9: filters registered under the generic `Matcher::Tag` bucket never
influence `check_event`: the lookup key derived from a tag is never
`Matcher::Tag`, and removing that bucket from the registry leaves
`check_event`'s result unchanged on every event. -/
theorem c9_tag_bucket_inert :
    (∀ t : Tag, matcherOfTag t ≠ Matcher.Tag) ∧
    (∀ (self : TaggedFilterer) (ev : Event),
      checkEvent ⟨self.root, self.workdir, removeTagBucket self.filters⟩ ev
        = checkEvent self ev) := by
  refine ⟨matcherOfTag_ne_tag, ?_⟩
  intro self ev
  have hget : ∀ t : Tag,
      registryGet (removeTagBucket self.filters) (matcherOfTag t)
        = registryGet self.filters (matcherOfTag t) :=
    fun t => registryGet_removeTagBucket self.filters (matcherOfTag t)
      (matcherOfTag_ne_tag t)
  rw [checkEvent, checkEvent]
  by_cases he : self.filters.isEmpty = true
  · have hnil : self.filters = [] := List.isEmpty_iff.mp he
    simp [hnil, removeTagBucket]
  · simp only [he, Bool.false_eq_true, if_false]
    by_cases hre : (removeTagBucket self.filters).isEmpty = true
    · have hrnil : removeTagBucket self.filters = [] := List.isEmpty_iff.mp hre
      have hnone : ∀ t : Tag,
          registryGet self.filters (matcherOfTag t) = none := by
        intro t
        rw [← hget t, hrnil, registryGet]
      simp only [hre, if_true]
      symm
      refine checkTags_all_ok self ev.tags (fun t ht => ?_)
      rw [evalTag, hnone t]
    · simp only [hre, Bool.false_eq_true, if_false]
      exact checkTags_ext self ⟨self.root, self.workdir, removeTagBucket self.filters⟩
        hget ev.tags

/-- C9 witness: a registry holding only a `Matcher::Tag` bucket behaves
like the registry with that bucket removed. -/
theorem c9_tag_bucket_inert_witness :
    checkEvent ⟨"", "", removeTagBucket [(Matcher.Tag, [filt1])]⟩ ⟨[Tag.Source "a"]⟩
      = checkEvent ⟨"", "", [(Matcher.Tag, [filt1])]⟩ ⟨[Tag.Source "a"]⟩ :=
  c9_tag_bucket_inert.2 ⟨"", "", [(Matcher.Tag, [filt1])]⟩ ⟨[Tag.Source "a"]⟩

end Tagged

namespace Tagged

/-- `Filter::matches` never reads `in_path`. -/
theorem matches_setInPath (f : Filter) (p : Option String) (s : String) :
    Filter.matches { f with in_path := p } s = Filter.matches f s := rfl

/-- `match_tag` never reads `in_path`. -/
theorem matchTag_setInPath (np : Filter → Option String) (f : Filter) (t : Tag) :
    matchTag (setInPath np f) t = matchTag f t := by
  obtain ⟨ip, m, op, pat, neg⟩ := f
  cases t <;> cases m <;> rfl

/-- The bucket fold never reads `in_path`. -/
theorem runBucket_setInPath (np : Filter → Option String) (fs : List Filter)
    (t : Tag) (acc : Bool) :
    runBucket (fs.map (setInPath np)) t acc = runBucket fs t acc := by
  induction fs generalizing acc with
  | nil => rfl
  | cons f fs ih =>
    rw [List.map_cons, runBucket, runBucket, matchTag_setInPath]
    cases matchTag f t with
    | ok o =>
      cases o with
      | none => exact ih acc
      | some app =>
        have hn : (setInPath np f).negate = f.negate := rfl
        rw [hn]
        exact ih _
    | err e => rfl
    | panicked m => rfl

/-- Lookup in a registry whose filters had `in_path` replaced returns the
same bucket with `in_path` replaced. -/
theorem registryGet_mapInPath (np : Filter → Option String) (reg : Registry)
    (m : Matcher) :
    registryGet (mapInPath np reg) m
      = (registryGet reg m).map (fun fs => fs.map (setInPath np)) := by
  induction reg with
  | nil => rfl
  | cons e rest ih =>
    obtain ⟨k, fs⟩ := e
    simp only [mapInPath, List.map_cons, registryGet]
    by_cases hkm : k = m
    · simp [hkm]
    · simp only [hkm, if_false]
      simp only [mapInPath] at ih
      exact ih

/-- The tag loop never reads `in_path`. -/
theorem checkTags_mapInPath (np : Filter → Option String)
    (self : TaggedFilterer) (ts : List Tag) :
    checkTags ⟨self.root, self.workdir, mapInPath np self.filters⟩ ts
      = checkTags self ts := by
  induction ts with
  | nil => rfl
  | cons t ts ih =>
    have hev : evalTag ⟨self.root, self.workdir, mapInPath np self.filters⟩ t
        = evalTag self t := by
      simp only [evalTag, registryGet_mapInPath]
      cases registryGet self.filters (matcherOfTag t) with
      | none => rfl
      | some fs =>
        cases fs with
        | nil => rfl
        | cons f fs' => exact runBucket_setInPath np (f :: fs') t true
    rw [checkTags_cons, checkTags_cons, hev]
    cases evalTag self t with
    | ok b => cases b <;> simp [ih]
    | err e => rfl
    | panicked m => rfl

/-- C10: the `in_path` field of a filter never affects evaluation:
`Filter::matches` returns the same result when only `in_path` differs, and
`check_event` returns the same result on a registry whose filters had
their `in_path` fields replaced arbitrarily. -/
theorem c10_in_path_inert :
    (∀ (f : Filter) (p : Option String) (s : String),
      Filter.matches { f with in_path := p } s = Filter.matches f s) ∧
    (∀ (np : Filter → Option String) (self : TaggedFilterer) (ev : Event),
      checkEvent ⟨self.root, self.workdir, mapInPath np self.filters⟩ ev
        = checkEvent self ev) := by
  refine ⟨matches_setInPath, ?_⟩
  intro np self ev
  rw [checkEvent, checkEvent]
  have hie : (mapInPath np self.filters).isEmpty = self.filters.isEmpty := by
    cases hfl : self.filters <;> simp [mapInPath, hfl]
  by_cases he : self.filters.isEmpty = true
  · simp [he, hie]
  · simp only [hie, he, Bool.false_eq_true, if_false]
    exact checkTags_mapInPath np self ev.tags

/-- `check_event` never returns `Err`: no arm of the given source ever
constructs a `RuntimeError`. -/
theorem checkEvent_ne_err (self : TaggedFilterer) (ev : Event) (e : RuntimeError) :
    checkEvent self ev ≠ .err e := by
  rw [checkEvent]
  by_cases he : self.filters.isEmpty = true
  · simp [he]
  · simp only [he, Bool.false_eq_true, if_false]
    exact checkTags_ne_err self ev.tags e

/-- C1: when a filter bucket applies to a `Path`, `Signal` or
`ProcessCompletion` tag, `check_event` does not return an "unsupported
matcher" `Err`: it hits the `todo!` stub and panics (aborts), and in fact
`check_event` can never return `Err` on any input at all. -/
theorem c1_unsupported_matcher_is_panic_not_err :
    checkEvent signalFilterer ⟨[Tag.Signal "SIGINT"]⟩
      = .panicked "tagged filterer: signal matcher" ∧
    checkEvent ⟨"", "", [(.Path, [⟨none, .Path, .Equal, .Exact "p", false⟩])]⟩
      ⟨[Tag.Path "p"]⟩ = .panicked "tagged filterer: path matcher" ∧
    checkEvent
      ⟨"", "", [(.ProcessCompletion,
                 [⟨none, .ProcessCompletion, .Equal, .Exact "0", false⟩])]⟩
      ⟨[Tag.ProcessCompletion none]⟩
      = .panicked "tagged filterer: completion matcher" ∧
    (∀ (self : TaggedFilterer) (ev : Event) (e : RuntimeError),
      checkEvent self ev ≠ .err e) :=
  ⟨by decide, by decide, by decide, checkEvent_ne_err⟩

/-- C1 witness: `check_event` is never `Err`, exhibited at a concrete
filterer and event. -/
theorem c1_unsupported_matcher_is_panic_not_err_witness :
    checkEvent signalFilterer ⟨[]⟩ ≠ .err (.external "unsupported matcher") :=
  c1_unsupported_matcher_is_panic_not_err.2.2.2 signalFilterer ⟨[]⟩
    (.external "unsupported matcher")

end Tagged

namespace Tagged

/-- C5 witness: the `Equal`/`Exact` row evaluated at a concrete subject
equal to the pattern text. -/
theorem c5_matches_table_witness :
    Filter.matches ⟨none, .Source, .Equal, .Exact "a", false⟩ "a" = .ok true :=
  (c5_matches_table none .Source false "a" "a").1.mpr rfl

end Tagged
